import Mathlib

/-!
Verification of the QuestionAnswering quiz-bowl training pipeline.

This file gives a shallow embedding of the data model and operations of the
repository (dataset.py, preprocess.py, train_DAN.py) and proves or refutes
the specification claims about them.

External library calls (regular-expression substitution, NLTK tokenization,
spaCy entity linking, the random train/test splitter, the Python set
iteration order, torch model evaluation) are modelled as explicit function
parameters: the claims under verification are about the control flow and
data flow of this repository's own code around those calls, not about the
libraries themselves.
-/

/-- Python `range(start, stop, step)` for a positive `step`: the arithmetic
progression `start, start+step, ...` of all values `< stop`
(`dataset.py` line 90 uses `range(char_skip, len(text)+char_skip, char_skip)`). -/
def pyRange (start stop step : Nat) : List Nat :=
  (List.range ((stop - start + step - 1) / step)).map (fun k => start + k * step)

/-- The `Question` NamedTuple of `dataset.py` (fields in source order). -/
structure Question where
  qanta_id : Int
  text : String
  first_sentence : String
  tokenizations : List (Nat × Nat)
  answer : String
  page : Option String
  fold : String
  gameplay : Bool
  category : Option String
  subcategory : Option String
  tournament : String
  difficulty : String
  year : Int
  proto_id : Option Int
  qdb_id : Option Int
  dataset : String
deriving DecidableEq, Repr

/-- `Question.sentences` (`dataset.py` lines 70-75): slices of `text` at the
stored tokenization offsets. -/
def Question.sentences (q : Question) : List String :=
  q.tokenizations.map (fun se => ((q.text.drop se.1).take (se.2 - se.1)))

/-- `Question.runs` (`dataset.py` lines 77-91):
`char_indices = list(range(char_skip, len(self.text) + char_skip, char_skip))`
and `return [self.text[:i] for i in char_indices], char_indices`. -/
def Question.runs (q : Question) (char_skip : Nat) : List String × List Nat :=
  let char_indices := pyRange char_skip (q.text.length + char_skip) char_skip
  (char_indices.map (fun i => q.text.take i), char_indices)

/-- A question with empty text (all other fields inert), used to evaluate
`runs` on the `L = 0` boundary. -/
def emptyTextQuestion : Question :=
  { qanta_id := 0, text := "", first_sentence := "", tokenizations := [],
    answer := "", page := none, fold := "guesstrain", gameplay := false,
    category := none, subcategory := none, tournament := "", difficulty := "",
    year := 0, proto_id := none, qdb_id := none, dataset := "" }

/-- A question whose text has length 40, matching the spec's worked example
for `char_skip = 10`. -/
def fortyCharQuestion : Question :=
  { emptyTextQuestion with
    text := "name this first united states president." }

theorem fortyCharQuestion_text_length : fortyCharQuestion.text.length = 40 := by
  decide

/-- Helper: `a < (a / b + 1) * b` for positive `b`. -/
theorem lt_div_succ_mul (a b : Nat) (hb : 0 < b) : a < (a / b + 1) * b := by
  have h := Nat.div_add_mod a b
  have hmod : a % b < b := Nat.mod_lt _ hb
  calc a = b * (a / b) + a % b := h.symm
    _ < b * (a / b) + b := by omega
    _ = (a / b + 1) * b := by ring

/-- **C1 (counterexample).** On empty text with skip 10, `Question.runs`
returns the empty list of prefixes — zero prefixes, not the one prefix the
claim demands ("for empty text (L = 0) there is exactly one (possibly empty)
prefix, never zero"). -/
theorem runs_empty_text_yields_no_prefix :
    (emptyTextQuestion.runs 10).1 = [] ∧ (emptyTextQuestion.runs 10).1.length ≠ 1 := by
  decide

/-- **C1 (amended).** For every skip size `s > 0` and question `q` of text
length `L`, `Question.runs` returns the prefixes `text[0:i]` for end offsets
`i = s, 2s, ..., (⌈L/s⌉)·s` — exactly `⌈L/s⌉ = (L + s - 1) / s` prefixes;
when `L > 0` the last offset is the first multiple of `s` that is `≥ L`,
so for `L = 40, s = 10` the offsets are `[10,20,30,40]` and for
`L = 5, s = 10` there is one full-text prefix.  For `L = 0` the result is
the empty list: zero prefixes, not one. -/
theorem runs_offsets_characterization (q : Question) (s : Nat) (hs : 0 < s) :
    (q.runs s).2 =
      (List.range ((q.text.length + s - 1) / s)).map (fun k => (k + 1) * s) ∧
    (q.runs s).1 = (q.runs s).2.map (fun i => q.text.take i) ∧
    (q.runs s).1.length = (q.text.length + s - 1) / s ∧
    (q.text.length = 0 → (q.runs s).1 = []) ∧
    (0 < q.text.length →
      q.text.length ≤ ((q.text.length + s - 1) / s) * s ∧
      (((q.text.length + s - 1) / s) - 1) * s < q.text.length) := by
  set L := q.text.length with hL
  set m := (L + s - 1) / s with hm
  have hidx : (q.runs s).2 = (List.range m).map (fun k => (k + 1) * s) := by
    show pyRange s (L + s) s = _
    unfold pyRange
    have : L + s - s + s - 1 = L + s - 1 := by omega
    rw [this]
    apply List.map_congr_left
    intro k _
    ring
  refine ⟨hidx, rfl, ?_, ?_, ?_⟩
  · show ((pyRange s (L + s) s).map (fun i => q.text.take i)).length = m
    unfold pyRange
    simp only [List.length_map, List.length_range]
    congr 1
    omega
  · intro h0
    show (pyRange s (L + s) s).map _ = []
    unfold pyRange
    have : L + s - s + s - 1 = s - 1 := by omega
    rw [this]
    have : (s - 1) / s = 0 := Nat.div_eq_of_lt (by omega)
    simp [this]
  · intro hpos
    constructor
    · have h1 : m = (L - 1) / s + 1 := by
        rw [hm]
        have : L + s - 1 = (L - 1) + s := by omega
        rw [this, Nat.add_div_right _ hs]
      rw [h1]
      have := lt_div_succ_mul (L - 1) s hs
      omega
    · have h1 : m = (L - 1) / s + 1 := by
        rw [hm]
        have : L + s - 1 = (L - 1) + s := by omega
        rw [this, Nat.add_div_right _ hs]
      rw [h1]
      simp only [Nat.add_sub_cancel]
      have := Nat.div_mul_le_self (L - 1) s
      omega

/-- Witness for C1's amended theorem at the spec's own worked example:
text length 40, skip 10, end offsets `[10,20,30,40]`. -/
theorem runs_offsets_characterization_witness :
    0 < 10 ∧
    ((fortyCharQuestion.runs 10).2 =
        (List.range ((fortyCharQuestion.text.length + 10 - 1) / 10)).map
          (fun k => (k + 1) * 10) ∧
      (fortyCharQuestion.runs 10).1 =
        (fortyCharQuestion.runs 10).2.map (fun i => fortyCharQuestion.text.take i) ∧
      (fortyCharQuestion.runs 10).1.length =
        (fortyCharQuestion.text.length + 10 - 1) / 10 ∧
      (fortyCharQuestion.text.length = 0 → (fortyCharQuestion.runs 10).1 = []) ∧
      (0 < fortyCharQuestion.text.length →
        fortyCharQuestion.text.length ≤
          ((fortyCharQuestion.text.length + 10 - 1) / 10) * 10 ∧
        (((fortyCharQuestion.text.length + 10 - 1) / 10) - 1) * 10 <
          fortyCharQuestion.text.length)) :=
  ⟨by decide, runs_offsets_characterization fortyCharQuestion 10 (by decide)⟩

/-- The guesser/buzzer train fold tags (`dataset.py` lines 24-26). -/
def GUESSER_TRAIN_FOLD : String := "guesstrain"

def BUZZER_TRAIN_FOLD : String := "buzztrain"

def GUESSER_DEV_FOLD : String := "guessdev"

def BUZZER_DEV_FOLD : String := "buzzdev"

def GUESSER_TEST_FOLD : String := "guesstest"

def BUZZER_TEST_FOLD : String := "buzztest"

/-- `q.fold in TRAIN_FOLDS` (`dataset.py` line 107). -/
def inTrainFolds (q : Question) : Bool :=
  q.fold == GUESSER_TRAIN_FOLD || q.fold == BUZZER_TRAIN_FOLD

/-- `q.fold in DEV_FOLDS` (`dataset.py` line 111). -/
def inDevFolds (q : Question) : Bool :=
  q.fold == GUESSER_DEV_FOLD || q.fold == BUZZER_DEV_FOLD

/-- The six fold tags appearing in `by_fold` (`dataset.py` lines 118-126). -/
def sixFoldTags : List String :=
  [GUESSER_TRAIN_FOLD, BUZZER_TRAIN_FOLD, GUESSER_DEV_FOLD, BUZZER_DEV_FOLD,
   BUZZER_TEST_FOLD, GUESSER_TEST_FOLD]

/-- The fold-specific question lists built by `QantaDatabase.__init__`
(`dataset.py` lines 95-116); the JSON loading is replaced by the already
decoded list `all_questions`. -/
structure QantaDatabase where
  all_questions : List Question
  mapped_questions : List Question
  train_questions : List Question
  guess_train_questions : List Question
  buzz_train_questions : List Question
  dev_questions : List Question
  guess_dev_questions : List Question
  buzz_dev_questions : List Question
  buzz_test_questions : List Question
  guess_test_questions : List Question

/-- The category filter of `dataset.py` lines 102-105:
`q.page is not None and q.category in category` when a category list is
given, else `q.page is not None`. -/
def mappedFilter (category : Option (List String)) (q : Question) : Bool :=
  match category with
  | some cats =>
    q.page.isSome && (match q.category with
                      | some c => cats.contains c
                      | none => false)
  | none => q.page.isSome

/-- `QantaDatabase.__init__` (`dataset.py` lines 95-116) on an already
decoded question list. -/
def mkQantaDatabase (all_questions : List Question)
    (category : Option (List String)) : QantaDatabase :=
  let mapped_questions := all_questions.filter (mappedFilter category)
  let train_questions := mapped_questions.filter inTrainFolds
  let guess_train_questions :=
    train_questions.filter (fun q => q.fold == GUESSER_TRAIN_FOLD)
  let buzz_train_questions :=
    train_questions.filter (fun q => q.fold == BUZZER_TRAIN_FOLD)
  let dev_questions := mapped_questions.filter inDevFolds
  let guess_dev_questions :=
    dev_questions.filter (fun q => q.fold == GUESSER_DEV_FOLD)
  let buzz_dev_questions :=
    dev_questions.filter (fun q => q.fold == BUZZER_DEV_FOLD)
  let buzz_test_questions :=
    mapped_questions.filter (fun q => q.fold == BUZZER_TEST_FOLD)
  let guess_test_questions :=
    mapped_questions.filter (fun q => q.fold == GUESSER_TEST_FOLD)
  { all_questions := all_questions,
    mapped_questions := mapped_questions,
    train_questions := train_questions,
    guess_train_questions := guess_train_questions,
    buzz_train_questions := buzz_train_questions,
    dev_questions := dev_questions,
    guess_dev_questions := guess_dev_questions,
    buzz_dev_questions := buzz_dev_questions,
    buzz_test_questions := buzz_test_questions,
    guess_test_questions := guess_test_questions }

/-- The six fold-specific lists, in the order of `by_fold`. -/
def QantaDatabase.sixLists (db : QantaDatabase) : List (List Question) :=
  [db.guess_train_questions, db.guess_dev_questions, db.buzz_train_questions,
   db.buzz_dev_questions, db.buzz_test_questions, db.guess_test_questions]

theorem mem_guess_train_iff (qs : List Question) (cat : Option (List String)) (q : Question) :
    q ∈ (mkQantaDatabase qs cat).guess_train_questions ↔
      q ∈ qs ∧ mappedFilter cat q = true ∧ q.fold = GUESSER_TRAIN_FOLD := by
  simp [mkQantaDatabase, List.mem_filter, inTrainFolds, GUESSER_TRAIN_FOLD]
  tauto

theorem mem_buzz_train_iff (qs : List Question) (cat : Option (List String)) (q : Question) :
    q ∈ (mkQantaDatabase qs cat).buzz_train_questions ↔
      q ∈ qs ∧ mappedFilter cat q = true ∧ q.fold = BUZZER_TRAIN_FOLD := by
  simp [mkQantaDatabase, List.mem_filter, inTrainFolds, BUZZER_TRAIN_FOLD]
  tauto

theorem mem_guess_dev_iff (qs : List Question) (cat : Option (List String)) (q : Question) :
    q ∈ (mkQantaDatabase qs cat).guess_dev_questions ↔
      q ∈ qs ∧ mappedFilter cat q = true ∧ q.fold = GUESSER_DEV_FOLD := by
  simp [mkQantaDatabase, List.mem_filter, inDevFolds, GUESSER_DEV_FOLD]
  tauto

theorem mem_buzz_dev_iff (qs : List Question) (cat : Option (List String)) (q : Question) :
    q ∈ (mkQantaDatabase qs cat).buzz_dev_questions ↔
      q ∈ qs ∧ mappedFilter cat q = true ∧ q.fold = BUZZER_DEV_FOLD := by
  simp [mkQantaDatabase, List.mem_filter, inDevFolds, BUZZER_DEV_FOLD]
  tauto

theorem mem_buzz_test_iff (qs : List Question) (cat : Option (List String)) (q : Question) :
    q ∈ (mkQantaDatabase qs cat).buzz_test_questions ↔
      q ∈ qs ∧ mappedFilter cat q = true ∧ q.fold = BUZZER_TEST_FOLD := by
  simp [mkQantaDatabase, List.mem_filter, BUZZER_TEST_FOLD]
  tauto

theorem mem_guess_test_iff (qs : List Question) (cat : Option (List String)) (q : Question) :
    q ∈ (mkQantaDatabase qs cat).guess_test_questions ↔
      q ∈ qs ∧ mappedFilter cat q = true ∧ q.fold = GUESSER_TEST_FOLD := by
  simp [mkQantaDatabase, List.mem_filter, GUESSER_TEST_FOLD]
  tauto

theorem mem_mapped_iff (qs : List Question) (cat : Option (List String)) (q : Question) :
    q ∈ (mkQantaDatabase qs cat).mapped_questions ↔
      q ∈ qs ∧ mappedFilter cat q = true := by
  simp [mkQantaDatabase, List.mem_filter]

/-- A mapped question carrying a fold tag outside the six known tags: it
lands in `mapped_questions` but in none of the six fold lists. -/
def strayFoldQuestion : Question :=
  { emptyTextQuestion with page := some "George_Washington", fold := "oddfold" }

/-- **C2 (counterexample).** For the one-question collection containing a
question with a non-null page but the unknown fold tag `"oddfold"`,
the union of the six fold lists does *not* equal the mapped set: the
question is mapped yet belongs to none of the six lists. -/
theorem six_lists_union_misses_stray_fold :
    strayFoldQuestion ∈ (mkQantaDatabase [strayFoldQuestion] none).mapped_questions ∧
    strayFoldQuestion ∉ ((mkQantaDatabase [strayFoldQuestion] none).sixLists).flatten := by
  decide

/-- A question passing `mappedFilter` has a non-null page. -/
theorem mappedFilter_page (cat : Option (List String)) (q : Question)
    (h : mappedFilter cat q = true) : q.page.isSome = true := by
  cases cat with
  | none => exact h
  | some cats =>
    simp only [mappedFilter, Bool.and_eq_true] at h
    exact h.1

/-- Two lists whose elements carry distinct constant fold tags are disjoint. -/
theorem disjoint_of_fold_tags {l1 l2 : List Question} {t1 t2 : String}
    (h1 : ∀ q ∈ l1, q.fold = t1) (h2 : ∀ q ∈ l2, q.fold = t2)
    (hne : t1 ≠ t2) : ∀ q ∈ l1, q ∉ l2 := by
  intro q hq hq'
  exact hne ((h1 q hq) ▸ (h2 q hq'))

/-- **C2 (amended).** For every question collection and category filter,
provided every question's fold tag is one of the six known tags, the six
fold lists built by `QantaDatabase.__init__` are pairwise disjoint, their
union equals the mapped set (questions with a non-null gold page passing
the category filter), and every question with a null gold page appears in
none of the six lists.  (Without the fold-tag proviso the disjointness and
null-page parts still hold, but a mapped question with an unknown fold tag
falls outside all six lists, breaking the union equality.) -/
theorem six_fold_lists_partition (qs : List Question) (cat : Option (List String))
    (h : ∀ q ∈ qs, q.fold ∈ sixFoldTags) :
    ((mkQantaDatabase qs cat).sixLists).Pairwise (fun a b => ∀ q ∈ a, q ∉ b) ∧
    (∀ q ∈ ((mkQantaDatabase qs cat).sixLists).flatten,
      q ∈ (mkQantaDatabase qs cat).mapped_questions) ∧
    (∀ q ∈ (mkQantaDatabase qs cat).mapped_questions,
      q ∈ ((mkQantaDatabase qs cat).sixLists).flatten) ∧
    (∀ q ∈ qs, q.page = none → q ∉ ((mkQantaDatabase qs cat).sixLists).flatten) := by
  have fgt : ∀ q ∈ (mkQantaDatabase qs cat).guess_train_questions,
      q.fold = GUESSER_TRAIN_FOLD :=
    fun q hq => ((mem_guess_train_iff qs cat q).mp hq).2.2
  have fbt : ∀ q ∈ (mkQantaDatabase qs cat).buzz_train_questions,
      q.fold = BUZZER_TRAIN_FOLD :=
    fun q hq => ((mem_buzz_train_iff qs cat q).mp hq).2.2
  have fgd : ∀ q ∈ (mkQantaDatabase qs cat).guess_dev_questions,
      q.fold = GUESSER_DEV_FOLD :=
    fun q hq => ((mem_guess_dev_iff qs cat q).mp hq).2.2
  have fbd : ∀ q ∈ (mkQantaDatabase qs cat).buzz_dev_questions,
      q.fold = BUZZER_DEV_FOLD :=
    fun q hq => ((mem_buzz_dev_iff qs cat q).mp hq).2.2
  have fbte : ∀ q ∈ (mkQantaDatabase qs cat).buzz_test_questions,
      q.fold = BUZZER_TEST_FOLD :=
    fun q hq => ((mem_buzz_test_iff qs cat q).mp hq).2.2
  have fgte : ∀ q ∈ (mkQantaDatabase qs cat).guess_test_questions,
      q.fold = GUESSER_TEST_FOLD :=
    fun q hq => ((mem_guess_test_iff qs cat q).mp hq).2.2
  have hsub : ∀ q ∈ ((mkQantaDatabase qs cat).sixLists).flatten,
      q ∈ (mkQantaDatabase qs cat).mapped_questions := by
    intro q hq
    simp only [QantaDatabase.sixLists, List.flatten, List.append_nil,
      List.mem_append] at hq
    rcases hq with h1 | h1 | h1 | h1 | h1 | h1
    · exact (mem_mapped_iff qs cat q).mpr
        ⟨((mem_guess_train_iff qs cat q).mp h1).1, ((mem_guess_train_iff qs cat q).mp h1).2.1⟩
    · exact (mem_mapped_iff qs cat q).mpr
        ⟨((mem_guess_dev_iff qs cat q).mp h1).1, ((mem_guess_dev_iff qs cat q).mp h1).2.1⟩
    · exact (mem_mapped_iff qs cat q).mpr
        ⟨((mem_buzz_train_iff qs cat q).mp h1).1, ((mem_buzz_train_iff qs cat q).mp h1).2.1⟩
    · exact (mem_mapped_iff qs cat q).mpr
        ⟨((mem_buzz_dev_iff qs cat q).mp h1).1, ((mem_buzz_dev_iff qs cat q).mp h1).2.1⟩
    · exact (mem_mapped_iff qs cat q).mpr
        ⟨((mem_buzz_test_iff qs cat q).mp h1).1, ((mem_buzz_test_iff qs cat q).mp h1).2.1⟩
    · exact (mem_mapped_iff qs cat q).mpr
        ⟨((mem_guess_test_iff qs cat q).mp h1).1, ((mem_guess_test_iff qs cat q).mp h1).2.1⟩
  refine ⟨?_, hsub, ?_, ?_⟩
  · refine List.Pairwise.cons ?_ (List.Pairwise.cons ?_ (List.Pairwise.cons ?_
      (List.Pairwise.cons ?_ (List.Pairwise.cons ?_
        (List.Pairwise.cons ?_ List.Pairwise.nil)))))
    · intro b hb
      simp only [List.mem_cons, List.not_mem_nil, or_false] at hb
      rcases hb with rfl | rfl | rfl | rfl | rfl
      · exact disjoint_of_fold_tags fgt fgd (by decide)
      · exact disjoint_of_fold_tags fgt fbt (by decide)
      · exact disjoint_of_fold_tags fgt fbd (by decide)
      · exact disjoint_of_fold_tags fgt fbte (by decide)
      · exact disjoint_of_fold_tags fgt fgte (by decide)
    · intro b hb
      simp only [List.mem_cons, List.not_mem_nil, or_false] at hb
      rcases hb with rfl | rfl | rfl | rfl
      · exact disjoint_of_fold_tags fgd fbt (by decide)
      · exact disjoint_of_fold_tags fgd fbd (by decide)
      · exact disjoint_of_fold_tags fgd fbte (by decide)
      · exact disjoint_of_fold_tags fgd fgte (by decide)
    · intro b hb
      simp only [List.mem_cons, List.not_mem_nil, or_false] at hb
      rcases hb with rfl | rfl | rfl
      · exact disjoint_of_fold_tags fbt fbd (by decide)
      · exact disjoint_of_fold_tags fbt fbte (by decide)
      · exact disjoint_of_fold_tags fbt fgte (by decide)
    · intro b hb
      simp only [List.mem_cons, List.not_mem_nil, or_false] at hb
      rcases hb with rfl | rfl
      · exact disjoint_of_fold_tags fbd fbte (by decide)
      · exact disjoint_of_fold_tags fbd fgte (by decide)
    · intro b hb
      simp only [List.mem_cons, List.not_mem_nil, or_false] at hb
      rcases hb with rfl
      exact disjoint_of_fold_tags fbte fgte (by decide)
    · intro b hb
      simp only [List.not_mem_nil] at hb
  · intro q hq
    obtain ⟨hqs, hfil⟩ := (mem_mapped_iff qs cat q).mp hq
    have hf := h q hqs
    simp only [sixFoldTags, List.mem_cons, List.not_mem_nil, or_false] at hf
    simp only [QantaDatabase.sixLists, List.flatten, List.append_nil,
      List.mem_append]
    rcases hf with e | e | e | e | e | e
    · exact Or.inl ((mem_guess_train_iff qs cat q).mpr ⟨hqs, hfil, e⟩)
    · exact Or.inr (Or.inr (Or.inl ((mem_buzz_train_iff qs cat q).mpr ⟨hqs, hfil, e⟩)))
    · exact Or.inr (Or.inl ((mem_guess_dev_iff qs cat q).mpr ⟨hqs, hfil, e⟩))
    · exact Or.inr (Or.inr (Or.inr (Or.inl
        ((mem_buzz_dev_iff qs cat q).mpr ⟨hqs, hfil, e⟩))))
    · exact Or.inr (Or.inr (Or.inr (Or.inr (Or.inl
        ((mem_buzz_test_iff qs cat q).mpr ⟨hqs, hfil, e⟩)))))
    · exact Or.inr (Or.inr (Or.inr (Or.inr (Or.inr
        ((mem_guess_test_iff qs cat q).mpr ⟨hqs, hfil, e⟩)))))
  · intro q _ hpage hq
    have hm := hsub q hq
    have := mappedFilter_page cat q ((mem_mapped_iff qs cat q).mp hm).2
    rw [hpage] at this
    exact Bool.noConfusion this

/-- A well-formed mapped question in the guesser-train fold, for the C2
witness. -/
def wellFoldedQuestion : Question :=
  { emptyTextQuestion with page := some "George_Washington", fold := "guesstrain" }

/-- Witness for C2's amended theorem on a concrete one-question collection
whose fold tag is valid. -/
theorem six_fold_lists_partition_witness :
    (∀ q ∈ [wellFoldedQuestion], q.fold ∈ sixFoldTags) ∧
    (((mkQantaDatabase [wellFoldedQuestion] none).sixLists).Pairwise
        (fun a b => ∀ q ∈ a, q ∉ b) ∧
      (∀ q ∈ ((mkQantaDatabase [wellFoldedQuestion] none).sixLists).flatten,
        q ∈ (mkQantaDatabase [wellFoldedQuestion] none).mapped_questions) ∧
      (∀ q ∈ (mkQantaDatabase [wellFoldedQuestion] none).mapped_questions,
        q ∈ ((mkQantaDatabase [wellFoldedQuestion] none).sixLists).flatten) ∧
      (∀ q ∈ [wellFoldedQuestion], q.page = none →
        q ∉ ((mkQantaDatabase [wellFoldedQuestion] none).sixLists).flatten)) :=
  ⟨by decide, six_fold_lists_partition [wellFoldedQuestion] none (by decide)⟩

/-- `clean_question` (`preprocess.py` lines 140-162).  The external calls are
explicit parameters: `subFiller` is `re.sub(regex_pattern, '', ·)` (filler
phrases, punctuation, bracketed asides), `subApos` is
`re.sub(regex_pattern_apostrophe, my_apos_replace, ·)`, `patternPass` is the
loop applying `re.sub(p, my_replace, ·)` for every `p` in `ques_patterns`,
`link` is `link_question`, and `es` is `get_response` (returning `none` when
it raises, in which case the code falls back to `question.lower()`).
The two successive assignments to `clean_ques` mirror source lines 157-158:
the second overwrites the first. -/
def clean_question (subFiller subApos patternPass link : String → String)
    (es : String → Option String)
    (map_pattern wiki_links use_es_highlight : Bool) (question : String) : String :=
  let question_lower :=
    if wiki_links then link question
    else if use_es_highlight then
      match es question with
      | some r => r
      | none => question.toLower
    else question.toLower
  let clean_ques := subFiller question_lower.trim
  let clean_ques := subApos question_lower.trim
  if map_pattern then patternPass clean_ques else clean_ques

/-- Modelled from the spec claim C3's words: the result of `clean_question`
should equal applying *only* the apostrophe-suffix rewriting (followed by the
optional pattern rewriting when `map_pattern` is set) to the lowercased
(resp. entity-linked / highlighted), stripped input — with no filler-phrase /
punctuation / bracket removal pass at all. -/
def clean_question_spec (subApos patternPass link : String → String)
    (es : String → Option String)
    (map_pattern wiki_links use_es_highlight : Bool) (question : String) : String :=
  let question_lower :=
    if wiki_links then link question
    else if use_es_highlight then
      match es question with
      | some r => r
      | none => question.toLower
    else question.toLower
  let clean_ques := subApos question_lower.trim
  if map_pattern then patternPass clean_ques else clean_ques

/-- **C3 (confirmed).** For every input string, every flag setting, and every
behaviour of the external regex substitutions, `clean_question` returns
exactly what the apostrophe-only pipeline returns: the filler-phrase /
punctuation / bracket removal pass (`subFiller`) is computed but its output
is discarded and has no effect on the result. -/
theorem clean_question_discards_filler_pass
    (subFiller subApos patternPass link : String → String)
    (es : String → Option String)
    (map_pattern wiki_links use_es_highlight : Bool) (question : String) :
    clean_question subFiller subApos patternPass link es
        map_pattern wiki_links use_es_highlight question =
      clean_question_spec subApos patternPass link es
        map_pattern wiki_links use_es_highlight question := rfl

/-- Python `set.add`: append the element unless already present (the vocab
set of `preprocess_dataset` is modelled as a duplicate-free list). -/
def setAdd (l : List String) (w : String) : List String :=
  if w ∈ l then l else l ++ [w]

/-- Python `dict` lookup for a dict built by successive assignments: a later
binding for the same key overwrites an earlier one, so the *last* matching
pair wins. -/
def dGet (d : List (String × Nat)) (w : String) : Option Nat :=
  d.foldl (fun acc p => if p.1 = w then some p.2 else acc) none

/-- The dict built by `for i, x in enumerate(l): d[x] = i`, with indices
starting at `n`. -/
def enumDict (n : Nat) : List String → List (String × Nat)
  | [] => []
  | x :: xs => (x, n) :: enumDict (n + 1) xs

/-- `class_to_i[ans]`: total model of the dict subscript (the `KeyError`
case, impossible on the maps the pipeline builds itself, is defaulted to 0). -/
def classGet (class_to_i : List (String × Nat)) (ans : String) : Nat :=
  (dGet class_to_i ans).getD 0

/-- The mutable training-partition accumulators of `preprocess_dataset`. -/
structure TrainState where
  x_train : List (List String)
  y_train : List Nat
  vocab : List String
deriving Repr, DecidableEq

/-- The mutable test-partition accumulators of `preprocess_dataset`. -/
structure TestState where
  x_test : List (List String)
  y_test : List Nat
deriving Repr, DecidableEq

/-- One iteration of the training-partition sentence loop
(`preprocess.py` lines 223-238), threading `(q_text, accumulators)`. -/
def trainSentStep (create_runs full_question : Bool) (tok : String → List String)
    (ansIdx : Nat) (acc : List String × TrainState) (sentence : String) :
    List String × TrainState :=
  let t_question := tok sentence
  let q_text := if create_runs || full_question then acc.1 ++ t_question else t_question
  let st := acc.2
  if t_question.isEmpty then (q_text, st)
  else
    let vocab := t_question.foldl setAdd st.vocab
    let x_train :=
      if create_runs then st.x_train ++ [q_text]
      else if !full_question then st.x_train ++ [q_text]
      else st.x_train
    let y_train := if !full_question then st.y_train ++ [ansIdx] else st.y_train
    (q_text, { x_train := x_train, y_train := y_train, vocab := vocab })

/-- Processing of one `(q, ans)` pair of the training partition
(`preprocess.py` lines 221-241), including the trailing full-question emit. -/
def trainQuestion (create_runs full_question : Bool) (tok : String → List String)
    (class_to_i : List (String × Nat)) (st : TrainState)
    (qa : List String × String) : TrainState :=
  let ansIdx := classGet class_to_i qa.2
  let r := qa.1.foldl (trainSentStep create_runs full_question tok ansIdx) ([], st)
  if full_question then
    { x_train := r.2.x_train ++ [r.1], y_train := r.2.y_train ++ [ansIdx],
      vocab := r.2.vocab }
  else r.2

/-- One iteration of the test-partition sentence loop
(`preprocess.py` lines 245-256); note that unlike the training loop it never
touches the vocabulary. -/
def testSentStep (create_runs full_question : Bool) (tok : String → List String)
    (ansIdx : Nat) (acc : List String × TestState) (sentence : String) :
    List String × TestState :=
  let t_question := tok sentence
  let st := acc.2
  if t_question.isEmpty then (acc.1, st)
  else
    if create_runs || full_question then
      let q_text := acc.1 ++ t_question
      let x_test := if !full_question then st.x_test ++ [q_text] else st.x_test
      let y_test := if !full_question then st.y_test ++ [ansIdx] else st.y_test
      (q_text, { x_test := x_test, y_test := y_test })
    else
      let q_text := t_question
      let x_test := st.x_test ++ [q_text]
      let y_test := if !full_question then st.y_test ++ [ansIdx] else st.y_test
      (q_text, { x_test := x_test, y_test := y_test })

/-- Processing of one `(q, ans)` pair of the test partition
(`preprocess.py` lines 243-259). -/
def testQuestion (create_runs full_question : Bool) (tok : String → List String)
    (class_to_i : List (String × Nat)) (st : TestState)
    (qa : List String × String) : TestState :=
  let ansIdx := classGet class_to_i qa.2
  let r := qa.1.foldl (testSentStep create_runs full_question tok ansIdx) ([], st)
  if full_question then
    { x_test := r.2.x_test ++ [r.1], y_test := r.2.y_test ++ [ansIdx] }
  else r.2

/-- The tuple returned by `preprocess_dataset`. -/
structure PreprocessResult where
  x_train : List (List String)
  y_train : List Nat
  x_test : List (List String)
  y_test : List Nat
  vocab : List String
  class_to_i : List (String × Nat)
  i_to_class : List String
deriving Repr, DecidableEq

/-- The two `ValueError`s raised by `preprocess_dataset`
(`preprocess.py` lines 192-197). -/
inductive PreprocessError where
  | incompatibleFlags
  | invalidSplitSizes
deriving Repr, DecidableEq

/-- The training partition: `train_test_split(...)` (an external, random
function, passed in as `split`) when `train_size != 1`, else everything. -/
def trainPartOf
    (split : List (List String × String) →
      List (List String × String) × List (List String × String))
    (pairs : List (List String × String)) (train_size : ℚ) :
    List (List String × String) :=
  if train_size ≠ 1 then (split pairs).1 else pairs

/-- The test partition: empty when `train_size == 1`. -/
def testPartOf
    (split : List (List String × String) →
      List (List String × String) × List (List String × String))
    (pairs : List (List String × String)) (train_size : ℚ) :
    List (List String × String) :=
  if train_size ≠ 1 then (split pairs).2 else []

/-- `preprocess_dataset` (`preprocess.py` lines 172-263).  External inputs:
`tok` models `tokenize_question` at the given flag setting, `enumClasses`
models the iteration order of the Python `set(data[1])`, and `split` models
the random `train_test_split`.  Sizes are rationals (the Python floats);
`vocab0`, `class_to_i0`, `i_to_class0` are the optional caller-supplied
accumulators. -/
def preprocessDataset (tok : String → List String)
    (enumClasses : List String → List String)
    (split : List (List String × String) →
      List (List String × String) × List (List String × String))
    (data0 : List (List String)) (data1 : List String)
    (train_size test_size : ℚ)
    (vocab0 : Option (List String))
    (class_to_i0 : Option (List (String × Nat)))
    (i_to_class0 : Option (List String))
    (create_runs full_question : Bool) :
    Except PreprocessError PreprocessResult :=
  if full_question && create_runs then .error .incompatibleFlags
  else if 1 < train_size + test_size then .error .invalidSplitSizes
  else
    let classes := enumClasses data1
    let maps :=
      match class_to_i0, i_to_class0 with
      | some c, some i => (c, i)
      | _, _ => (enumDict 0 classes, classes)
    let class_to_i := maps.1
    let i_to_class := maps.2
    let vocab := vocab0.getD []
    let question_runs_with_answer := data0.zip data1
    let train := trainPartOf split question_runs_with_answer train_size
    let test := testPartOf split question_runs_with_answer train_size
    let st := train.foldl (trainQuestion create_runs full_question tok class_to_i)
      { x_train := [], y_train := [], vocab := vocab }
    let ts := test.foldl (testQuestion create_runs full_question tok class_to_i)
      { x_test := [], y_test := [] }
    .ok { x_train := st.x_train, y_train := st.y_train,
          x_test := ts.x_test, y_test := ts.y_test,
          vocab := st.vocab, class_to_i := class_to_i, i_to_class := i_to_class }

/-- **C4 (confirmed).** With `full_question = true` and `create_runs = true`,
`preprocess_dataset` returns the incompatible-flags configuration error for
*every* dataset, split sizes, caller-supplied maps, tokenizer, class
enumeration and splitter — the result does not depend on any of them, so the
error is raised before any train/test split, tokenization, or vocabulary
mutation takes place. -/
theorem preprocess_incompatible_flags_error (tok : String → List String)
    (enumClasses : List String → List String)
    (split : List (List String × String) →
      List (List String × String) × List (List String × String))
    (data0 : List (List String)) (data1 : List String)
    (train_size test_size : ℚ)
    (vocab0 : Option (List String))
    (class_to_i0 : Option (List (String × Nat)))
    (i_to_class0 : Option (List String)) :
    preprocessDataset tok enumClasses split data0 data1 train_size test_size
        vocab0 class_to_i0 i_to_class0 true true =
      Except.error PreprocessError.incompatibleFlags := rfl

/-- **C7 (confirmed).** The label maps `class_to_i` / `i_to_class` built by
`preprocess_dataset` (when the caller supplies neither) do not depend on the
random train/test splitter: two runs on the same input data in the same
order, differing only in the randomness of `train_test_split`, produce
identical label maps.  (The enumeration order `enumClasses` of the distinct
label set is implementation-defined but fixed for a given input order, as
the claim assumes.) -/
theorem preprocess_class_maps_reproducible (tok : String → List String)
    (enumClasses : List String → List String)
    (split1 split2 : List (List String × String) →
      List (List String × String) × List (List String × String))
    (data0 : List (List String)) (data1 : List String)
    (train_size test_size : ℚ)
    (vocab0 : Option (List String))
    (create_runs full_question : Bool) :
    (preprocessDataset tok enumClasses split1 data0 data1 train_size test_size
        vocab0 none none create_runs full_question).map
        (fun r => (r.class_to_i, r.i_to_class)) =
      (preprocessDataset tok enumClasses split2 data0 data1 train_size test_size
        vocab0 none none create_runs full_question).map
        (fun r => (r.class_to_i, r.i_to_class)) := by
  by_cases h1 : (full_question && create_runs) = true
  · simp [preprocessDataset, h1]
  · by_cases h2 : 1 < train_size + test_size
    · simp [preprocessDataset, h1, h2]
    · simp [preprocessDataset, h1, h2, Except.map]

/-- The cumulative prefixes emitted by the runs-mode training loop: one
entry per tokenization in `ts`, each extending the accumulated `qt`. -/
def prefixJoins (qt : List String) : List (List String) → List (List String)
  | [] => []
  | t :: rest => (qt ++ t) :: prefixJoins (qt ++ t) rest

/-- Modelled from claim C10's words: one example per sentence whose
tokenization is non-empty, the k-th example being the concatenation of the
tokens of all sentences up to and including the k-th non-empty-tokenizing
one. -/
def runsExamplesSpec (tok : String → List String) (sents : List String) :
    List (List String) :=
  let ts := (sents.map tok).filter (fun t => !t.isEmpty)
  (List.range ts.length).map (fun k => (ts.take (k + 1)).flatten)

theorem trainSentStep_runs_empty (tok : String → List String) (a : Nat)
    (qt : List String) (st : TrainState) (s : String) (h : tok s = []) :
    trainSentStep true false tok a (qt, st) s = (qt, st) := by
  simp [trainSentStep, h]

theorem trainSentStep_runs_nonempty (tok : String → List String) (a : Nat)
    (qt : List String) (st : TrainState) (s : String) (h : ¬ tok s = []) :
    trainSentStep true false tok a (qt, st) s =
      (qt ++ tok s,
       { x_train := st.x_train ++ [qt ++ tok s],
         y_train := st.y_train ++ [a],
         vocab := (tok s).foldl setAdd st.vocab }) := by
  have he : (tok s).isEmpty = false := by
    cases hts : tok s with
    | nil => exact absurd hts h
    | cons x xs => rfl
  simp [trainSentStep, he]

/-- The `x_train` examples appended by the runs-mode sentence loop are the
cumulative prefixes of the non-empty tokenizations. -/
theorem trainRuns_x_train (tok : String → List String) (a : Nat)
    (sents : List String) :
    ∀ (qt : List String) (st : TrainState),
      ((sents.foldl (trainSentStep true false tok a) (qt, st)).2).x_train =
        st.x_train ++ prefixJoins qt ((sents.map tok).filter (fun t => !t.isEmpty)) := by
  induction sents with
  | nil => intro qt st; simp [prefixJoins]
  | cons s rest ih =>
    intro qt st
    rw [List.foldl_cons]
    by_cases h : tok s = []
    · rw [trainSentStep_runs_empty tok a qt st s h, ih qt st]
      simp [h, prefixJoins]
    · rw [trainSentStep_runs_nonempty tok a qt st s h, ih]
      have he : (tok s).isEmpty = false := by
        cases hts : tok s with
        | nil => exact absurd hts h
        | cons x xs => rfl
      simp only [List.map_cons, List.filter_cons, he, Bool.not_false, if_true]
      simp [prefixJoins, List.append_assoc]

/-- `prefixJoins` computes exactly the claim's description: the k-th entry
is `qt` followed by the join of the first `k+1` tokenizations. -/
theorem prefixJoins_eq (ts : List (List String)) :
    ∀ qt : List String,
      prefixJoins qt ts =
        (List.range ts.length).map (fun k => qt ++ (ts.take (k + 1)).flatten) := by
  induction ts with
  | nil => intro qt; rfl
  | cons t rest ih =>
    intro qt
    show (qt ++ t) :: prefixJoins (qt ++ t) rest = _
    rw [List.length_cons, List.range_succ_eq_map, List.map_cons, List.map_map]
    congr 1
    · simp
    · rw [ih (qt ++ t)]
      apply List.map_congr_left
      intro k _
      simp [List.take_succ_cons, List.flatten_cons, List.append_assoc,
        Function.comp]

/-- When every tokenization is non-empty, successive entries of
`prefixJoins` strictly grow: each is a strict prefix of the next. -/
theorem prefixJoins_chain (ts : List (List String)) (hne : ∀ t ∈ ts, t ≠ []) :
    ∀ qt : List String,
      List.Chain' (fun a b => a <+: b ∧ a.length < b.length) (prefixJoins qt ts) := by
  induction ts with
  | nil => intro qt; simp [prefixJoins]
  | cons t rest ih =>
    intro qt
    have hrest : ∀ u ∈ rest, u ≠ [] := fun u hu => hne u (List.mem_cons_of_mem _ hu)
    cases rest with
    | nil => simp [prefixJoins]
    | cons t2 rest2 =>
      show List.Chain' _
        ((qt ++ t) :: (qt ++ t ++ t2) :: prefixJoins (qt ++ t ++ t2) rest2)
      rw [List.chain'_cons]
      constructor
      · refine ⟨⟨t2, rfl⟩, ?_⟩
        have h2 : t2 ≠ [] := hrest t2 (by simp)
        have h2' : 0 < t2.length := List.length_pos.mpr h2
        simp only [List.length_append]
        omega
      · exact ih hrest (qt ++ t)

/-- **C10 (confirmed).** In runs mode (`create_runs = true`,
`full_question = false`), processing one training-partition question appends
to `x_train` exactly one example per sentence with a non-empty tokenization,
the k-th appended example being the concatenation of the tokens of all
sentences up to and including the k-th non-empty-tokenizing one; each
emitted example is a strict prefix of the next (lengths strictly increase
within the question). -/
theorem train_runs_examples (tok : String → List String)
    (class_to_i : List (String × Nat)) (st : TrainState)
    (q : List String) (ans : String) :
    (trainQuestion true false tok class_to_i st (q, ans)).x_train =
      st.x_train ++ runsExamplesSpec tok q ∧
    List.Chain' (fun a b => a <+: b ∧ a.length < b.length)
      (runsExamplesSpec tok q) := by
  have hspec : runsExamplesSpec tok q =
      prefixJoins [] ((q.map tok).filter (fun t => !t.isEmpty)) := by
    rw [runsExamplesSpec, prefixJoins_eq]
    simp
  constructor
  · show ((q.foldl (trainSentStep true false tok (classGet class_to_i ans))
        ([], st)).2).x_train = _
    rw [trainRuns_x_train, hspec]
  · rw [hspec]
    apply prefixJoins_chain
    intro t ht
    have := List.of_mem_filter ht
    simp only [Bool.not_eq_true'] at this
    intro hnil
    rw [hnil] at this
    exact Bool.noConfusion this


/-- Python string comparison `a <= b` on code points, as a lexicographic
comparison of the character lists (compare code points, on a tie recurse,
a prefix is smaller). -/
def lexLe : List Char → List Char → Bool
  | [], _ => true
  | _ :: _, [] => false
  | a :: as, b :: bs =>
    if a.toNat < b.toNat then true
    else if b.toNat < a.toNat then false
    else lexLe as bs

/-- Python's `<=` on strings: lexicographic by code point. -/
def pyLe (a b : String) : Prop := lexLe a.data b.data = true

instance : DecidableRel pyLe :=
  fun a b => inferInstanceAs (Decidable (lexLe a.data b.data = true))

theorem lexLe_trans : ∀ a b c : List Char,
    lexLe a b = true → lexLe b c = true → lexLe a c = true := by
  intro a
  induction a with
  | nil => intro b c _ _; rfl
  | cons x xs ih =>
    intro b c h1 h2
    cases b with
    | nil => exact absurd h1 (by simp [lexLe])
    | cons y ys =>
      cases c with
      | nil => exact absurd h2 (by simp [lexLe])
      | cons z zs =>
        simp only [lexLe] at h1 h2 ⊢
        by_cases hxy : x.toNat < y.toNat
        · by_cases hyz : y.toNat < z.toNat
          · have hxz : x.toNat < z.toNat := by omega
            simp [hxz]
          · by_cases hzy : z.toNat < y.toNat
            · rw [if_neg hyz, if_pos hzy] at h2
              exact absurd h2 (by simp)
            · have hyz' : y.toNat = z.toNat := by omega
              have hxz : x.toNat < z.toNat := by omega
              simp [hxz]
        · by_cases hyx : y.toNat < x.toNat
          · rw [if_neg hxy, if_pos hyx] at h1
            exact absurd h1 (by simp)
          · rw [if_neg hxy, if_neg hyx] at h1
            by_cases hyz : y.toNat < z.toNat
            · have hxz : x.toNat < z.toNat := by omega
              simp [hxz]
            · by_cases hzy : z.toNat < y.toNat
              · rw [if_neg hyz, if_pos hzy] at h2
                exact absurd h2 (by simp)
              · rw [if_neg hyz, if_neg hzy] at h2
                have hxz : ¬ x.toNat < z.toNat := by omega
                have hzx : ¬ z.toNat < x.toNat := by omega
                rw [if_neg hxz, if_neg hzx]
                exact ih ys zs h1 h2

theorem lexLe_total : ∀ a b : List Char,
    lexLe a b = true ∨ lexLe b a = true := by
  intro a
  induction a with
  | nil => intro b; exact Or.inl rfl
  | cons x xs ih =>
    intro b
    cases b with
    | nil => exact Or.inr rfl
    | cons y ys =>
      simp only [lexLe]
      by_cases hxy : x.toNat < y.toNat
      · exact Or.inl (by simp [hxy])
      · by_cases hyx : y.toNat < x.toNat
        · exact Or.inr (by simp [hyx])
        · rw [if_neg hxy, if_neg hyx, if_neg hyx, if_neg hxy]
          exact ih ys

instance : IsTrans String pyLe :=
  ⟨fun a b c h1 h2 => lexLe_trans a.data b.data c.data h1 h2⟩

instance : IsTotal String pyLe :=
  ⟨fun a b => lexLe_total a.data b.data⟩

/-- `vocab = ['<unk>', '<eos>'] + sorted(vocab)` (`train_DAN.py` line 175);
the Python set is modelled as a duplicate-free list, `sorted` as insertion
sort under Python's lexicographic string order. -/
def buildVocabList (vocab : List String) : List String :=
  ["<unk>", "<eos>"] ++ List.insertionSort pyLe vocab

/-- `word_to_i = {x: i for i, x in enumerate(vocab)}`
(`train_DAN.py` line 176). -/
def word_to_i (vocab : List String) : List (String × Nat) :=
  enumDict 0 (buildVocabList vocab)

/-- `make_array` (`train_DAN.py` lines 69-75): map each token through the
vocabulary dict, falling back to the unknown id, then append the
end-of-sequence id when requested. -/
def makeArray (vocab : List (String × Nat)) (tokens : List String)
    (add_eos : Bool) : List Nat :=
  let unk_id := (dGet vocab "<unk>").getD 0
  let eos_id := (dGet vocab "<eos>").getD 0
  let ids := tokens.map (fun t => (dGet vocab t).getD unk_id)
  if add_eos then ids ++ [eos_id] else ids

/-- Folding the dict-lookup over a list from an arbitrary accumulator:
the last matching pair wins, else the accumulator survives. -/
theorem dGet_foldl_acc (w : String) (d : List (String × Nat)) :
    ∀ acc : Option Nat,
      d.foldl (fun a p => if p.1 = w then some p.2 else a) acc =
        match dGet d w with
        | some v => some v
        | none => acc := by
  induction d with
  | nil => intro acc; rfl
  | cons p rest ih =>
    intro acc
    show rest.foldl _ (if p.1 = w then some p.2 else acc) = _
    rw [ih]
    have hr : dGet (p :: rest) w =
        match dGet rest w with
        | some v => some v
        | none => if p.1 = w then some p.2 else none := by
      show rest.foldl _ (if p.1 = w then some p.2 else none) = _
      exact ih _
    rw [hr]
    cases hd : dGet rest w <;> by_cases h : p.1 = w <;> simp [h, hd]

/-- A key absent from the enumerated list is absent from the dict. -/
theorem dGet_enumDict_not_mem (w : String) :
    ∀ (l : List String) (n : Nat), w ∉ l → dGet (enumDict n l) w = none := by
  intro l
  induction l with
  | nil => intro n _; rfl
  | cons x xs ih =>
    intro n hw
    show (enumDict (n + 1) xs).foldl _ (if x = w then some n else none) = none
    rw [dGet_foldl_acc]
    have hx : ¬ x = w := fun e => hw (by rw [← e]; exact List.mem_cons_self x xs)
    have hxs : w ∉ xs := fun hm => hw (List.mem_cons_of_mem _ hm)
    rw [ih (n + 1) hxs]
    simp [hx]

/-- On a duplicate-free key list, the dict maps the `i`-th key to `n + i`. -/
theorem dGet_enumDict_get (l : List String) (hl : l.Nodup) :
    ∀ (n i : Nat) (h : i < l.length),
      dGet (enumDict n l) (l.get ⟨i, h⟩) = some (n + i) := by
  induction l with
  | nil => intro n i h; exact absurd h (by simp)
  | cons x xs ih =>
    intro n i h
    have hx : x ∉ xs := (List.nodup_cons.mp hl).1
    have hxs : xs.Nodup := (List.nodup_cons.mp hl).2
    cases i with
    | zero =>
      have hg : (x :: xs).get ⟨0, h⟩ = x := rfl
      rw [hg]
      show (enumDict (n + 1) xs).foldl _ (if x = x then some n else none) = some (n + 0)
      rw [dGet_foldl_acc, dGet_enumDict_not_mem x xs (n + 1) hx]
      simp
    | succ j =>
      have hj : j < xs.length := by simpa using h
      have hg : (x :: xs).get ⟨j + 1, h⟩ = xs.get ⟨j, hj⟩ := rfl
      rw [hg]
      show (enumDict (n + 1) xs).foldl _
        (if x = xs.get ⟨j, hj⟩ then some n else none) = some (n + (j + 1))
      rw [dGet_foldl_acc, ih hxs (n + 1) j hj]
      show some (n + 1 + j) = some (n + (j + 1))
      congr 1
      omega

/-- **C6 (counterexample).** For the vocabulary set `{"<unk>"}` — which
contains the reserved unknown token itself — the dict comprehension's later
binding overwrites the earlier one, so `"<unk>"` is assigned id 2, not the
id 0 the claim promises for every vocabulary set. -/
theorem word_to_i_reserved_collision :
    dGet (word_to_i ["<unk>"]) "<unk>" = some 2 ∧
    dGet (word_to_i ["<unk>"]) "<unk>" ≠ some 0 := by
  decide

/-- **C6 (amended).** For every vocabulary set (duplicate-free, as a Python
set is) that does not itself contain the reserved tokens `"<unk>"` and
`"<eos>"`, the id assignment of `DANGuesser.train` places `"<unk>"` at id 0
and `"<eos>"` at id 1, and assigns the vocabulary tokens consecutive ids
starting at 2 in sorted lexical order: the sorted list is a permutation of
the vocabulary, is sorted under Python's string order, and its `i`-th entry
gets id `2 + i`.  E.g. from training tokens `{"the","cat"}`, `"cat"` gets a
smaller id than `"the"` and both are `≥ 2`. -/
theorem word_to_i_reserved_and_sorted (vocab : List String)
    (hnd : vocab.Nodup) (hu : "<unk>" ∉ vocab) (he : "<eos>" ∉ vocab) :
    dGet (word_to_i vocab) "<unk>" = some 0 ∧
    dGet (word_to_i vocab) "<eos>" = some 1 ∧
    (List.insertionSort pyLe vocab).Perm vocab ∧
    (List.insertionSort pyLe vocab).Pairwise pyLe ∧
    ∀ i (h : i < (List.insertionSort pyLe vocab).length),
      dGet (word_to_i vocab) ((List.insertionSort pyLe vocab).get ⟨i, h⟩) =
        some (2 + i) := by
  have hperm : (List.insertionSort pyLe vocab).Perm vocab :=
    List.perm_insertionSort pyLe vocab
  have hus : "<unk>" ∉ List.insertionSort pyLe vocab :=
    fun hm => hu (hperm.mem_iff.mp hm)
  have hes : "<eos>" ∉ List.insertionSort pyLe vocab :=
    fun hm => he (hperm.mem_iff.mp hm)
  have hnds : (List.insertionSort pyLe vocab).Nodup := hperm.nodup_iff.mpr hnd
  have hfull : ("<unk>" :: "<eos>" :: List.insertionSort pyLe vocab).Nodup := by
    rw [List.nodup_cons, List.nodup_cons]
    refine ⟨?_, hes, hnds⟩
    simp only [List.mem_cons]
    push_neg
    exact ⟨by decide, hus⟩
  refine ⟨?_, ?_, hperm, List.sorted_insertionSort pyLe vocab, ?_⟩
  · have h0 : (0 : Nat) < ("<unk>" :: "<eos>" :: List.insertionSort pyLe vocab).length := by
      simp
    have hv := dGet_enumDict_get _ hfull 0 0 h0
    exact hv
  · have h1 : (1 : Nat) < ("<unk>" :: "<eos>" :: List.insertionSort pyLe vocab).length := by
      simp
    have hv := dGet_enumDict_get _ hfull 0 1 h1
    exact hv
  · intro i h
    have h2 : i + 2 < ("<unk>" :: "<eos>" :: List.insertionSort pyLe vocab).length := by
      simp only [List.length_cons]
      omega
    have hv := dGet_enumDict_get _ hfull 0 (i + 2) h2
    have hg : ("<unk>" :: "<eos>" :: List.insertionSort pyLe vocab).get ⟨i + 2, h2⟩ =
        (List.insertionSort pyLe vocab).get ⟨i, h⟩ := rfl
    rw [hg] at hv
    have harith : (0 : Nat) + (i + 2) = 2 + i := by omega
    rw [harith] at hv
    exact hv

/-- Witness for C6's amended theorem on the spec's own example vocabulary
`{"the", "cat"}`. -/
theorem word_to_i_reserved_and_sorted_witness :
    (["the", "cat"].Nodup ∧ "<unk>" ∉ ["the", "cat"] ∧ "<eos>" ∉ ["the", "cat"]) ∧
    (dGet (word_to_i ["the", "cat"]) "<unk>" = some 0 ∧
      dGet (word_to_i ["the", "cat"]) "<eos>" = some 1 ∧
      (List.insertionSort pyLe ["the", "cat"]).Perm ["the", "cat"] ∧
      (List.insertionSort pyLe ["the", "cat"]).Pairwise pyLe ∧
      ∀ i (h : i < (List.insertionSort pyLe ["the", "cat"]).length),
        dGet (word_to_i ["the", "cat"])
            ((List.insertionSort pyLe ["the", "cat"]).get ⟨i, h⟩) =
          some (2 + i)) :=
  ⟨⟨by decide, by decide, by decide⟩,
    word_to_i_reserved_and_sorted ["the", "cat"] (by decide) (by decide) (by decide)⟩

theorem mem_setAdd (v : List String) (x w : String) :
    w ∈ setAdd v x ↔ w ∈ v ∨ w = x := by
  by_cases h : x ∈ v
  · simp only [setAdd, if_pos h]
    constructor
    · exact Or.inl
    · rintro (hw | rfl)
      · exact hw
      · exact h
  · simp [setAdd, if_neg h]

theorem mem_foldl_setAdd (t : List String) :
    ∀ (v : List String) (w : String),
      w ∈ t.foldl setAdd v ↔ w ∈ v ∨ w ∈ t := by
  induction t with
  | nil => intro v w; simp
  | cons x xs ih =>
    intro v w
    rw [List.foldl_cons, ih, mem_setAdd]
    simp only [List.mem_cons]
    tauto

/-- One training sentence adds exactly its tokens to the vocabulary, in
every mode. -/
theorem trainSentStep_vocab_mem (cr fq : Bool) (tok : String → List String)
    (a : Nat) (acc : List String × TrainState) (s : String) (w : String) :
    w ∈ ((trainSentStep cr fq tok a acc s).2).vocab ↔
      w ∈ acc.2.vocab ∨ w ∈ tok s := by
  cases hts : tok s with
  | nil => simp [trainSentStep, hts]
  | cons x xs =>
    simp only [trainSentStep, hts, List.isEmpty_cons]
    rw [if_neg (by simp)]
    show w ∈ (x :: xs).foldl setAdd acc.2.vocab ↔ _
    rw [mem_foldl_setAdd]

/-- The training sentence loop accumulates exactly the tokens of its
sentences into the vocabulary, in every mode. -/
theorem trainFold_vocab_mem (cr fq : Bool) (tok : String → List String)
    (a : Nat) (sents : List String) :
    ∀ (acc : List String × TrainState) (w : String),
      w ∈ ((sents.foldl (trainSentStep cr fq tok a) acc).2).vocab ↔
        w ∈ acc.2.vocab ∨ ∃ s ∈ sents, w ∈ tok s := by
  induction sents with
  | nil => intro acc w; simp
  | cons s rest ih =>
    intro acc w
    rw [List.foldl_cons, ih, trainSentStep_vocab_mem]
    simp only [List.mem_cons, exists_eq_or_imp]
    tauto

/-- Processing one training question adds exactly its sentences' tokens to
the vocabulary, in every mode. -/
theorem trainQuestion_vocab_mem (cr fq : Bool) (tok : String → List String)
    (cti : List (String × Nat)) (st : TrainState)
    (qa : List String × String) (w : String) :
    w ∈ (trainQuestion cr fq tok cti st qa).vocab ↔
      w ∈ st.vocab ∨ ∃ s ∈ qa.1, w ∈ tok s := by
  cases fq with
  | false =>
    show w ∈ ((qa.1.foldl (trainSentStep cr false tok (classGet cti qa.2))
        ([], st)).2).vocab ↔ _
    exact trainFold_vocab_mem cr false tok _ qa.1 ([], st) w
  | true =>
    show w ∈ ((qa.1.foldl (trainSentStep cr true tok (classGet cti qa.2))
        ([], st)).2).vocab ↔ _
    exact trainFold_vocab_mem cr true tok _ qa.1 ([], st) w

/-- The training-partition loop accumulates exactly the tokens of the
training questions into the vocabulary, in every mode. -/
theorem trainList_vocab_mem (cr fq : Bool) (tok : String → List String)
    (cti : List (String × Nat)) (train : List (List String × String)) :
    ∀ (st : TrainState) (w : String),
      w ∈ (train.foldl (trainQuestion cr fq tok cti) st).vocab ↔
        w ∈ st.vocab ∨ ∃ qa ∈ train, ∃ s ∈ qa.1, w ∈ tok s := by
  induction train with
  | nil => intro st w; simp
  | cons qa rest ih =>
    intro st w
    rw [List.foldl_cons, ih, trainQuestion_vocab_mem]
    constructor
    · rintro ((h | ⟨s, hs, hw⟩) | ⟨qa2, hqa2, s, hs, hw⟩)
      · exact Or.inl h
      · exact Or.inr ⟨qa, List.mem_cons_self qa rest, s, hs, hw⟩
      · exact Or.inr ⟨qa2, List.mem_cons_of_mem _ hqa2, s, hs, hw⟩
    · rintro (h | ⟨qa2, hqa2, s, hs, hw⟩)
      · exact Or.inl (Or.inl h)
      · rcases List.mem_cons.mp hqa2 with rfl | hq
        · exact Or.inl (Or.inr ⟨s, hs, hw⟩)
        · exact Or.inr ⟨qa2, hq, s, hs, hw⟩

/-- The vocabulary returned by a successful `preprocess_dataset` call is
exactly the initial vocabulary plus the tokens of the *training* partition's
sentences — the test partition contributes nothing, in every mode. -/
theorem preprocess_ok_vocab (tok : String → List String)
    (enumClasses : List String → List String)
    (split : List (List String × String) →
      List (List String × String) × List (List String × String))
    (data0 : List (List String)) (data1 : List String)
    (train_size test_size : ℚ)
    (vocab0 : Option (List String))
    (class_to_i0 : Option (List (String × Nat)))
    (i_to_class0 : Option (List String))
    (create_runs full_question : Bool) (res : PreprocessResult)
    (hres : preprocessDataset tok enumClasses split data0 data1 train_size
      test_size vocab0 class_to_i0 i_to_class0 create_runs full_question =
      Except.ok res) (w : String) :
    w ∈ res.vocab ↔
      w ∈ vocab0.getD [] ∨
        ∃ qa ∈ trainPartOf split (data0.zip data1) train_size,
          ∃ s ∈ qa.1, w ∈ tok s := by
  unfold preprocessDataset at hres
  split at hres
  · simp at hres
  · split at hres
    · simp at hres
    · simp only [Except.ok.injEq] at hres
      subst hres
      exact trainList_vocab_mem _ _ _ _ _ _ _

/-- **C5 (confirmed).** Tokens enter the vocabulary only from the training
partition; a token `w` (other than the reserved markers) absent from the
initial vocabulary and from every training-partition sentence's tokens is
absent from the returned vocabulary, and `make_array` maps it to the
reserved unknown id (appending the end-of-sequence id), never to a fresh
id — in every mode of `preprocess_dataset`. -/
theorem test_only_token_maps_to_unknown (tok : String → List String)
    (enumClasses : List String → List String)
    (split : List (List String × String) →
      List (List String × String) × List (List String × String))
    (data0 : List (List String)) (data1 : List String)
    (train_size test_size : ℚ)
    (vocab0 : Option (List String))
    (class_to_i0 : Option (List (String × Nat)))
    (i_to_class0 : Option (List String))
    (create_runs full_question : Bool) (res : PreprocessResult) (w : String)
    (hres : preprocessDataset tok enumClasses split data0 data1 train_size
      test_size vocab0 class_to_i0 i_to_class0 create_runs full_question =
      Except.ok res)
    (hw0 : w ∉ vocab0.getD [])
    (hwt : ∀ qa ∈ trainPartOf split (data0.zip data1) train_size,
      ∀ s ∈ qa.1, w ∉ tok s)
    (hu : w ≠ "<unk>") (he : w ≠ "<eos>") :
    w ∉ res.vocab ∧
    makeArray (word_to_i res.vocab) [w] true =
      [(dGet (word_to_i res.vocab) "<unk>").getD 0,
       (dGet (word_to_i res.vocab) "<eos>").getD 0] := by
  have hmem := preprocess_ok_vocab tok enumClasses split data0 data1 train_size
    test_size vocab0 class_to_i0 i_to_class0 create_runs full_question res hres w
  have hnv : w ∉ res.vocab := by
    rw [hmem]
    rintro (h | ⟨qa, hqa, s, hs, hw⟩)
    · exact hw0 h
    · exact hwt qa hqa s hs hw
  refine ⟨hnv, ?_⟩
  have hnone : dGet (word_to_i res.vocab) w = none := by
    show dGet (enumDict 0 (buildVocabList res.vocab)) w = none
    apply dGet_enumDict_not_mem
    intro hmem2
    simp only [buildVocabList, List.mem_append, List.mem_cons,
      List.not_mem_nil, or_false] at hmem2
    rcases hmem2 with (rfl | rfl) | hins
    · exact hu rfl
    · exact he rfl
    · exact hnv ((List.perm_insertionSort pyLe res.vocab).mem_iff.mp hins)
  simp [makeArray, hnone]

/-- Tokenizer for the C5 witness: each sentence is a single token. -/
def tokW : String → List String := fun s => [s]

/-- Class enumeration for the C5 witness: iteration order = input order. -/
def enumW : List String → List String := fun l => l

/-- Splitter for the C5 witness: first pair trains, the rest tests. -/
def splitW : List (List String × String) →
    List (List String × String) × List (List String × String) :=
  fun pairs => (pairs.take 1, pairs.drop 1)

/-- Dataset for the C5 witness: the token `"zebra"` occurs only in the
question that `splitW` places in the test partition. -/
def data0W : List (List String) := [["hello"], ["zebra"]]

def data1W : List String := ["A", "B"]

/-- The result of `preprocessDataset` on the C5 witness inputs. -/
def resW : PreprocessResult :=
  { x_train := [["hello"]], y_train := [0],
    x_test := [["zebra"]], y_test := [1],
    vocab := ["hello"],
    class_to_i := [("A", 0), ("B", 1)], i_to_class := ["A", "B"] }

/-- Witness for C5 at a concrete dataset: `"zebra"` occurs only in the test
partition, ends up outside the vocabulary, and `make_array` sends it to the
unknown id 0 followed by the end-of-sequence id 1. -/
theorem test_only_token_maps_to_unknown_witness :
    (preprocessDataset tokW enumW splitW data0W data1W 0 0 none none none
        false false = Except.ok resW) ∧
    ("zebra" ∉ (none : Option (List String)).getD []) ∧
    (∀ qa ∈ trainPartOf splitW (data0W.zip data1W) 0, ∀ s ∈ qa.1,
      "zebra" ∉ tokW s) ∧
    ("zebra" ≠ "<unk>") ∧ ("zebra" ≠ "<eos>") ∧
    ("zebra" ∉ resW.vocab ∧
      makeArray (word_to_i resW.vocab) ["zebra"] true =
        [(dGet (word_to_i resW.vocab) "<unk>").getD 0,
         (dGet (word_to_i resW.vocab) "<eos>").getD 0]) := by
  have hres : preprocessDataset tokW enumW splitW data0W data1W 0 0 none none
      none false false = Except.ok resW := by
    unfold preprocessDataset
    rw [if_neg (by decide : ¬ ((false : Bool) && false) = true),
      if_neg (by norm_num : ¬ (1 : ℚ) < 0 + 0)]
    exact congrArg Except.ok (by decide)
  refine ⟨hres, by decide, by decide, by decide, by decide, ?_⟩
  exact test_only_token_maps_to_unknown tokW enumW splitW data0W data1W 0 0
    none none none false false resW "zebra" hres (by decide) (by decide)
    (by decide) (by decide)

/-- The epoch loop of `DANGuesser.train` (`train_DAN.py` lines 220-238),
abstracted over one execution trace: `outcomes` lists, per epoch, the
validation accuracy computed by `run_epoch` on the dev loader together with
the `stop_training` verdict of `manager.instruct` for that epoch.  The
function returns, in order, the arguments passed to
`self.scheduler.step(test_acc)`: on a halting epoch the loop breaks before
the scheduler line, otherwise the scheduler is stepped with that epoch's
validation accuracy and the loop continues. -/
def schedulerSteps {A : Type} : List (A × Bool) → List A
  | [] => []
  | (test_acc, stop_training) :: rest =>
    if stop_training then [] else test_acc :: schedulerSteps rest

/-- **C8 (confirmed).** Over any execution trace, the learning-rate
scheduler is stepped exactly once after every epoch in which the callback
manager does not request a halt — receiving that epoch's validation
accuracy — and is never stepped in the epoch where training halts: the
step arguments are exactly the accuracies of the epochs strictly before the
first halting epoch, in order. -/
theorem scheduler_steps_before_halt {A : Type} (outcomes : List (A × Bool)) :
    schedulerSteps outcomes =
      (outcomes.takeWhile (fun o => o.2 = false)).map Prod.fst := by
  induction outcomes with
  | nil => rfl
  | cons o rest ih =>
    obtain ⟨test_acc, stop_training⟩ := o
    cases stop_training with
    | false =>
      have h1 : schedulerSteps ((test_acc, false) :: rest) =
          test_acc :: schedulerSteps rest := rfl
      have h2 : ((test_acc, false) :: rest).takeWhile
            (fun o : A × Bool => o.2 = false) =
          (test_acc, false) :: rest.takeWhile (fun o => o.2 = false) := rfl
      rw [h1, h2, List.map_cons, ih]
    | true => rfl

/-- The persistent state of a `DANGuesser` façade (`train_DAN.py`
lines 117-135 and 161-171).  `P` abstracts torch parameter blobs; `model`
is the live in-memory model, `model_file` the *contents* of the checkpoint
file written by `ModelCheckpoint` during training (`none` before training
or after a bare `load`). -/
structure GuesserState (P : Type) where
  class_to_i : List (String × Nat)
  i_to_class : List String
  word_to_i : List (String × Nat)
  map_pattern : Bool
  wiki_links : Bool
  use_es_highlight : Bool
  use_wiki : Bool
  model : P
  model_file : Option P
deriving DecidableEq

/-- The artifact written by `DANGuesser.save` (`train_DAN.py`
lines 313-325): the copied checkpoint file `dan.pt` plus the pickled
metadata `dan.pkl`. -/
structure DanArtifact (P : Type) where
  dan_pt : P
  class_to_i : List (String × Nat)
  i_to_class : List String
  word_to_i : List (String × Nat)
  use_wiki : Bool
  map_pattern : Bool
  wiki_links : Bool
  use_es_highlight : Bool
deriving DecidableEq

/-- `DANGuesser.save`: copies the checkpoint file (`shutil.copyfile(
self.model_file, ...)` — *not* the live `self.model`) and pickles the
metadata; fails (`none`) when no checkpoint file exists. -/
def DANGuesser.save {P : Type} (g : GuesserState P) : Option (DanArtifact P) :=
  match g.model_file with
  | none => none
  | some checkpoint =>
    some { dan_pt := checkpoint,
           class_to_i := g.class_to_i, i_to_class := g.i_to_class,
           word_to_i := g.word_to_i, use_wiki := g.use_wiki,
           map_pattern := g.map_pattern, wiki_links := g.wiki_links,
           use_es_highlight := g.use_es_highlight }

/-- `DANGuesser.load` (`train_DAN.py` lines 290-311): restores the pickled
fields and loads the model parameters from the saved `dan.pt`; the fresh
façade's `model_file` is `None` (from `__init__`). -/
def DANGuesser.load {P : Type} (a : DanArtifact P) : GuesserState P :=
  { class_to_i := a.class_to_i, i_to_class := a.i_to_class,
    word_to_i := a.word_to_i, map_pattern := a.map_pattern,
    wiki_links := a.wiki_links, use_es_highlight := a.use_es_highlight,
    use_wiki := a.use_wiki, model := a.dan_pt, model_file := none }

/-- The part of the façade state that `DANGuesser.guess`
(`train_DAN.py` lines 265-284) reads: tokenization flags, vocabulary dict,
label list, and the live model parameters.  Deterministic eval-time
inference is a function of exactly these fields. -/
structure GuessRelevantState (P : Type) where
  word_to_i : List (String × Nat)
  i_to_class : List String
  map_pattern : Bool
  wiki_links : Bool
  use_es_highlight : Bool
  model : P
deriving DecidableEq

def guessState {P : Type} (g : GuesserState P) : GuessRelevantState P :=
  { word_to_i := g.word_to_i, i_to_class := g.i_to_class,
    map_pattern := g.map_pattern, wiki_links := g.wiki_links,
    use_es_highlight := g.use_es_highlight, model := g.model }

/-- A trained façade whose live model parameters differ from the
checkpointed ones (the monitored metric last improved before the final
epoch), used to refute C9 as stated. -/
def staleCheckpointGuesser : GuesserState Nat :=
  { class_to_i := [("A", 0)], i_to_class := ["A"],
    word_to_i := [("<unk>", 0), ("<eos>", 1)],
    map_pattern := false, wiki_links := false, use_es_highlight := false,
    use_wiki := false, model := 0, model_file := some 1 }

/-- **C9 (counterexample).** `save` copies the checkpoint file, not the live
model, so for a façade whose final in-memory parameters differ from the
best checkpoint, `save` followed by `load` yields a façade whose
guess-relevant state — in particular the model parameters — differs from
the original's; its guesses are those of the checkpoint, not of the façade
that was saved. -/
theorem save_load_not_identity :
    (DANGuesser.save staleCheckpointGuesser).map
        (fun a => guessState (DANGuesser.load a)) ≠
      some (guessState staleCheckpointGuesser) := by
  decide

/-- **C9 (amended).** `save` followed by `load` restores the vocabulary,
label maps, tokenization configuration flags and `use_wiki` exactly, and
sets the loaded model parameters to the checkpoint recorded in the model
file; whenever the in-memory parameters equal the checkpointed ones (e.g.
the final epoch improved the monitored metric), the loaded façade's entire
guess-relevant state equals the original's, so deterministic eval-time
inference produces identical guesses for every input batch. -/
theorem save_load_roundtrip {P : Type} (g : GuesserState P) (c : P)
    (hc : g.model_file = some c) (hm : g.model = c) :
    ∃ a, DANGuesser.save g = some a ∧
      guessState (DANGuesser.load a) = guessState g ∧
      (DANGuesser.load a).class_to_i = g.class_to_i ∧
      (DANGuesser.load a).i_to_class = g.i_to_class ∧
      (DANGuesser.load a).word_to_i = g.word_to_i ∧
      (DANGuesser.load a).use_wiki = g.use_wiki ∧
      (DANGuesser.load a).model = c := by
  refine ⟨{ dan_pt := c, class_to_i := g.class_to_i, i_to_class := g.i_to_class,
            word_to_i := g.word_to_i, use_wiki := g.use_wiki,
            map_pattern := g.map_pattern, wiki_links := g.wiki_links,
            use_es_highlight := g.use_es_highlight },
          ?_, ?_, rfl, rfl, rfl, rfl, rfl⟩
  · unfold DANGuesser.save
    rw [hc]
  · show ({ word_to_i := g.word_to_i, i_to_class := g.i_to_class,
            map_pattern := g.map_pattern, wiki_links := g.wiki_links,
            use_es_highlight := g.use_es_highlight,
            model := c } : GuessRelevantState P) = guessState g
    rw [← hm]
    rfl

/-- A trained façade whose final parameters coincide with the checkpoint,
witnessing the amended C9. -/
def freshCheckpointGuesser : GuesserState Nat :=
  { staleCheckpointGuesser with model := 1, model_file := some 1 }

/-- Witness for C9's amended theorem. -/
theorem save_load_roundtrip_witness :
    (freshCheckpointGuesser.model_file = some 1 ∧ freshCheckpointGuesser.model = 1) ∧
    (∃ a, DANGuesser.save freshCheckpointGuesser = some a ∧
      guessState (DANGuesser.load a) = guessState freshCheckpointGuesser ∧
      (DANGuesser.load a).class_to_i = freshCheckpointGuesser.class_to_i ∧
      (DANGuesser.load a).i_to_class = freshCheckpointGuesser.i_to_class ∧
      (DANGuesser.load a).word_to_i = freshCheckpointGuesser.word_to_i ∧
      (DANGuesser.load a).use_wiki = freshCheckpointGuesser.use_wiki ∧
      (DANGuesser.load a).model = 1) :=
  ⟨⟨rfl, rfl⟩, save_load_roundtrip freshCheckpointGuesser 1 rfl rfl⟩
